import Mathlib

/-!
Verification of the aioftp FTP server core (src/aioftp/server.py and
src/aioftp/common.py) against its natural-language specification.

The development shallow-embeds the relevant pieces of the Python source:

* `PurePosixPath` models `pathlib.PurePosixPath` values as an absoluteness
  flag plus the list of path segments (the non-root components of `parts`);
  `parsePP` models the `PurePosixPath(str)` constructor.
* `Server.get_paths` models the virtual/real path resolver.
* `Permission`, `Permission.is_parent` and `User.get_permissions` model the
  nearest-parent permission lookup.
* `PathPermissions.call` models the permission-guard decorator.
* `Throttle` and `Throttle.append` model the token-bucket limiter, with
  event-loop timestamps as rationals and Python `round` as `pyRound`.
* `AvailableConnections` models the bounded non-blocking counter.
* `start_passive_server` models the data-port pool loop of
  `Server._start_passive_server`, with `asyncio.PriorityQueue` as a list
  used as a multiset and `get_nowait` as removal of the least element.
* `dispatchStep` models the restart-offset bookkeeping of the command
  dispatcher, and `dispatcherEndsSession` its reaction to a handler result.
-/

/-! ## Paths: a model of pathlib.PurePosixPath -/

/-- Model of a `pathlib.PurePosixPath` value: whether the path is absolute
and its list of segments (the `parts` tuple without the leading root
marker).  Segments never contain a slash; `"."` and empty segments are
dropped by the constructor, `".."` segments are kept, as in `pathlib`. -/
structure PurePosixPath where
  absolute : Bool
  segments : List String
deriving DecidableEq, Repr

/-- The root path `"/"`. -/
def PurePosixPath.rootPath : PurePosixPath := ⟨true, []⟩

/-- Model of the `parts` tuple of a `PurePosixPath`: the root marker
followed by the segments. -/
def PurePosixPath.pparts (p : PurePosixPath) : List String :=
  (if p.absolute then ["/"] else []) ++ p.segments

/-- Split a character list on the slash character. -/
def splitOnSlash : List Char → List (List Char)
  | [] => [[]]
  | c :: cs =>
      if c = '/' then [] :: splitOnSlash cs
      else
        match splitOnSlash cs with
        | [] => [[c]]
        | seg :: more => (c :: seg) :: more

/-- Model of the `PurePosixPath(s)` constructor applied to a string: the
path is absolute iff the string starts with a slash, and the segments are
the slash-separated components with empty and `"."` components dropped. -/
def parsePP (s : String) : PurePosixPath :=
  { absolute :=
      match s.data with
      | '/' :: _ => true
      | _ => false
    segments :=
      ((splitOnSlash s.data).map (fun cs => String.mk cs)).filter
        (fun t => t ≠ "" && t ≠ ".") }

/-- Model of `cwd / p` of `pathlib` for a relative right operand: the
segments are concatenated and absoluteness comes from the left operand. -/
def PurePosixPath.join (cwd p : PurePosixPath) : PurePosixPath :=
  ⟨cwd.absolute, cwd.segments ++ p.segments⟩

namespace Server

/-- Model of the resolution loop of `Server.get_paths`: starting from the
virtual root, walk `parts[1:]`; a `".."` part pops one segment (stopping at
the root, as `PurePosixPath.parent` does), any other part is appended. -/
def resolveParts (parts : List String) : List String :=
  parts.foldl (fun acc part => if part = ".." then acc.dropLast else acc ++ [part]) []

/-- The virtual-path part of `Server.get_paths`: parse the received path,
join it onto the current directory when it is relative, and resolve the
`parts[1:]` walk. -/
def resolvedVirtual (cwd : PurePosixPath) (path : String) : List String :=
  resolveParts
    ((if (parsePP path).absolute then parsePP path else cwd.join (parsePP path)).pparts.drop 1)

/-- Model of `Server.get_paths(connection, path)` from src/aioftp/server.py.
`base` is `connection.user.base_path` as a list of real-path segments and
`cwd` is `connection.current_directory`.  The received path is parsed; if
relative it is joined onto the current directory; `".."` parts are resolved
with the "up" action; the real path is `base_path / resolved.relative_to("/")`;
finally, if the real path does not have `base_path` as an ancestor (the
`relative_to` check), the result is clamped to `(base_path, "/")`. -/
def get_paths (base : List String) (cwd : PurePosixPath) (path : String) :
    List String × PurePosixPath :=
  if base <+: base ++ resolvedVirtual cwd path then
    (base ++ resolvedVirtual cwd path, ⟨true, resolvedVirtual cwd path⟩)
  else (base, ⟨true, []⟩)

end Server

/-- The resolution loop never leaves a `".."` in the resolved segments. -/
theorem resolveParts_no_dotdot (parts : List String) :
    ".." ∉ Server.resolveParts parts := by
  unfold Server.resolveParts
  suffices h : ∀ acc : List String, ".." ∉ acc →
      ".." ∉ parts.foldl
        (fun acc part => if part = ".." then acc.dropLast else acc ++ [part]) acc from
    h [] (by simp)
  induction parts with
  | nil => intro acc hacc; simpa using hacc
  | cons p ps ih =>
      intro acc hacc
      simp only [List.foldl_cons]
      by_cases hp : p = ".."
      · rw [if_pos hp]
        exact ih _ (fun hmem => hacc (List.dropLast_subset _ hmem))
      · rw [if_neg hp]
        refine ih _ ?_
        intro hmem
        rcases List.mem_append.mp hmem with h1 | h2
        · exact hacc h1
        · exact hp ((List.mem_singleton.mp h2).symm)

/-- C1: Path jail.  For every user base path `B`, every absolute current
directory and every client path string `P`, `get_paths` returns a real path
that is `B` or a descendant of `B` (so no sequence of `".."` segments in
`P` escapes `B`), together with an absolute virtual path containing no
`".."` segment; the real path is `B` extended by the virtual segments
unless the ancestor check fails, in which case the result is clamped to
`(B, "/")`. -/
theorem get_paths_jail (base : List String) (cwd : PurePosixPath) (P : String)
    (hcwd : cwd.absolute = true) :
    base <+: (Server.get_paths base cwd P).1 ∧
    (Server.get_paths base cwd P).2.absolute = true ∧
    ".." ∉ (Server.get_paths base cwd P).2.segments ∧
    ((Server.get_paths base cwd P).1 =
        base ++ (Server.get_paths base cwd P).2.segments ∨
      Server.get_paths base cwd P = (base, ⟨true, []⟩)) := by
  unfold Server.get_paths
  split
  · exact ⟨⟨_, rfl⟩, rfl, resolveParts_no_dotdot _, Or.inl rfl⟩
  · exact ⟨List.prefix_rfl, rfl, by simp, Or.inr rfl⟩

/-- Witness for C1: the jail property evaluated at the concrete base path
`["jail"]`, current directory `"/"` and client path `"../../x"`. -/
theorem get_paths_jail_witness :
    (PurePosixPath.mk true [] : PurePosixPath).absolute = true ∧
    ["jail"] <+: (Server.get_paths ["jail"] ⟨true, []⟩ "../../x").1 ∧
    (Server.get_paths ["jail"] ⟨true, []⟩ "../../x").2.absolute = true :=
  ⟨rfl,
    (get_paths_jail ["jail"] ⟨true, []⟩ "../../x" rfl).1,
    (get_paths_jail ["jail"] ⟨true, []⟩ "../../x" rfl).2.1⟩

/-- C8 counterexample: at current directory `"/"`, resolving the client
path `"../../etc"` yields the virtual path `"/etc"`, not `"/"` as the
claim states. -/
theorem get_paths_dotdot_etc_not_root :
    (Server.get_paths ["jail"] ⟨true, []⟩ "../../etc").2 ≠ ⟨true, []⟩ ∧
    (Server.get_paths ["jail"] ⟨true, []⟩ "../../etc").2 = ⟨true, ["etc"]⟩ := by
  decide

/-- C8 amended: for a connection whose current directory is `"/"`,
resolving the client path `"../../etc"` yields the virtual path `"/etc"`
and the real path `base_path/etc` (still inside the jail), for every base
path. -/
theorem get_paths_dotdot_etc (base : List String) :
    Server.get_paths base ⟨true, []⟩ "../../etc" = (base ++ ["etc"], ⟨true, ["etc"]⟩) := by
  have h : Server.resolvedVirtual ⟨true, []⟩ "../../etc" = ["etc"] := by decide
  unfold Server.get_paths
  rw [h, if_pos ⟨["etc"], rfl⟩]

/-! ## Permissions: Permission, User.get_permissions, PathPermissions -/

/-- Model of `aioftp.Permission`: an absolute virtual path with `readable`
and `writable` flags.  `Permission()` defaults to
`{path="/", readable=True, writable=True}`. -/
structure Permission where
  path : PurePosixPath
  readable : Bool
  writable : Bool
deriving DecidableEq, Repr

/-- Model of `Permission.is_parent(other)`: `other.relative_to(self.path)`
succeeds exactly when both paths agree on absoluteness and the permission
segments are a prefix of the other segments. -/
def Permission.is_parent (self : Permission) (other : PurePosixPath) : Bool :=
  self.path.absolute == other.absolute && self.path.segments.isPrefixOf other.segments

/-- Model of Python `min(xs, key=key, default=None)`: fold from the left,
keeping the earlier element on ties, as CPython `min` does. -/
def pyMinBy {α : Type} (key : α → ℕ) (l : List α) : Option α :=
  l.foldl
    (fun acc x =>
      match acc with
      | none => some x
      | some m => if key x < key m then some x else some m)
    none

/-- Model of the sort key in `User.get_permissions`:
`len(path.relative_to(p.path).parts)`, the number of remaining parts. -/
def permKey (queried : PurePosixPath) (p : Permission) : ℕ :=
  queried.segments.length - p.path.segments.length

namespace User

/-- Model of `User.get_permissions(path)` from src/aioftp/server.py: filter
the permissions whose path is a parent of the queried path, take the
minimum by the number of remaining parts (Python `min`, first wins on
ties), defaulting to `Permission()`. -/
def get_permissions (permissions : List Permission) (path : PurePosixPath) : Permission :=
  ((pyMinBy (permKey path) (permissions.filter (fun p => p.is_parent path))).getD
    ⟨PurePosixPath.rootPath, true, true⟩)

end User

/-- Modelled from the claim: pick the first listed element whose key is
minimal (longest ancestor match, earliest wins on ties). -/
def firstMinBy {α : Type} (key : α → ℕ) : List α → Option α
  | [] => none
  | x :: xs =>
      match firstMinBy key xs with
      | none => some x
      | some m => if key x ≤ key m then some x else some m

/-- Modelled from the claim: the applicable permission is the one whose
path is an ancestor of the query with the longest ancestor match (fewest
remaining path parts), ties broken by insertion order (earliest wins); if
no permission path is an ancestor, the default
`{path=/, readable=true, writable=true}` applies. -/
def get_permissionsSpec (permissions : List Permission) (path : PurePosixPath) : Permission :=
  ((firstMinBy (permKey path) (permissions.filter (fun p => p.is_parent path))).getD
    ⟨PurePosixPath.rootPath, true, true⟩)

/-- The left fold used by `pyMinBy`, started from `some m`, computes the
first minimum of `m` and the list, preferring strictly smaller keys. -/
theorem pyMinBy_foldl_eq {α : Type} (key : α → ℕ) (xs : List α) :
    ∀ m : α,
      xs.foldl
        (fun acc x =>
          match acc with
          | none => some x
          | some m' => if key x < key m' then some x else some m')
        (some m)
      = some ((firstMinBy key xs).elim m (fun n => if key n < key m then n else m)) := by
  induction xs with
  | nil => intro m; rfl
  | cons y ys ih =>
      intro m
      simp only [List.foldl_cons]
      by_cases hym : key y < key m
      · rw [if_pos hym, ih y]
        simp only [firstMinBy]
        rcases hys : firstMinBy key ys with _ | n
        · simp [hys, Option.elim, hym]
        · by_cases hyn : key y ≤ key n <;>
            simp only [hyn, Option.elim, if_true, if_false, ite_true, ite_false] <;>
            split_ifs <;> first | rfl | omega
      · rw [if_neg hym, ih m]
        simp only [firstMinBy]
        rcases hys : firstMinBy key ys with _ | n
        · simp [hys, Option.elim, hym]
        · by_cases hyn : key y ≤ key n <;>
            simp only [hyn, Option.elim, if_true, if_false, ite_true, ite_false] <;>
            split_ifs <;> first | rfl | omega

/-- The Python `min`-based fold agrees with the first-minimum description. -/
theorem pyMinBy_eq_firstMinBy {α : Type} (key : α → ℕ) (l : List α) :
    pyMinBy key l = firstMinBy key l := by
  cases l with
  | nil => rfl
  | cons x xs =>
      unfold pyMinBy
      simp only [List.foldl_cons]
      rw [pyMinBy_foldl_eq key xs x]
      simp only [firstMinBy]
      rcases hxs : firstMinBy key xs with _ | n
      · rfl
      · simp only [Option.elim]
        split_ifs <;> first | rfl | omega

/-- C7: nearest-parent permission lookup.  For every permission list and
every virtual path, `User.get_permissions` returns the permission whose
path is an ancestor of the query with the longest ancestor match (fewest
remaining path parts), ties broken by insertion order (earliest wins), and
the default `{path=/, readable=true, writable=true}` when no permission
path is an ancestor. -/
theorem get_permissions_nearest_parent (permissions : List Permission) (path : PurePosixPath) :
    User.get_permissions permissions path = get_permissionsSpec permissions path := by
  unfold User.get_permissions get_permissionsSpec
  rw [pyMinBy_eq_firstMinBy]

/-! ## PathPermissions guard -/

/-- The two flags a `PathPermissions` guard may require, `readable` and
`writable`. -/
inductive PermFlag
  | readable
  | writable
deriving DecidableEq, Repr

/-- Look up a declared flag on the applicable permission, as
`getattr(current_permission, permission)` does. -/
def flagHolds (current : Permission) : PermFlag → Bool
  | .readable => current.readable
  | .writable => current.writable

/-- Outcome of the `PathPermissions` wrapper: either the 550
"permission denied" response is sent (body not invoked), or the handler
body runs, or, for an empty declaration, the loop falls through and the
wrapper returns without response or body. -/
inductive GuardOutcome
  | deniedResponse
  | ranBody
  | fellThrough
deriving DecidableEq, Repr

namespace PathPermissions

/-- Model of `PathPermissions.__call__`Ꞌs wrapper from src/aioftp/server.py,
faithful to the source where `return await f(...)` sits INSIDE the
`for permission in self.permissions` loop: the first iteration always
returns, so only the first declared flag is ever inspected. -/
def call (declared : List PermFlag) (current : Permission) : GuardOutcome :=
  match declared with
  | [] => .fellThrough
  | flag :: _ =>
      if !(flagHolds current flag) then .deniedResponse else .ranBody

end PathPermissions

/-- C3: evaluation at the failing input.  With declared flags
`[readable, writable]` and an applicable permission that is readable but
not writable, the wrapper runs the handler body even though the `writable`
flag is false, contradicting the fail-closed reading in which every
declared flag must hold. -/
theorem pathPermissions_checks_only_first :
    PathPermissions.call [.readable, .writable] ⟨PurePosixPath.rootPath, true, false⟩ =
      .ranBody ∧
    flagHolds ⟨PurePosixPath.rootPath, true, false⟩ .writable = false := by
  decide

/-! ## AvailableConnections -/

/-- Model of `aioftp.AvailableConnections`: a bounded non-blocking counter
with `value` and `maximum_value`; Python integers are unbounded, hence
`ℤ`. -/
structure AvailableConnections where
  value : ℤ
  maximum_value : ℤ
deriving DecidableEq, Repr

namespace AvailableConnections

/-- Model of the constructor `AvailableConnections(value)`:
`self.value = self.maximum_value = value`. -/
def init (v : ℤ) : AvailableConnections := ⟨v, v⟩

/-- Model of `AvailableConnections.acquire`: decrement, then raise
`ValueError` when the result is negative (the decrement is not rolled
back).  The Boolean is true when `ValueError` is raised. -/
def acquire (a : AvailableConnections) : AvailableConnections × Bool :=
  ({ a with value := a.value - 1 }, decide (a.value - 1 < 0))

/-- Model of `AvailableConnections.release`: increment, then raise
`ValueError` when the result exceeds `maximum_value` (the increment is not
rolled back).  The Boolean is true when `ValueError` is raised. -/
def release (a : AvailableConnections) : AvailableConnections × Bool :=
  ({ a with value := a.value + 1 }, decide (a.maximum_value < a.value + 1))

end AvailableConnections

/-- C10: `acquire` raises `ValueError` exactly when the pre-call value is
at most 0, and decrements even then; `release` increments and, whenever
the pre-call value is within bounds, raises exactly when the pre-call
value equals the maximum, leaving the value at maximum+1. -/
theorem availableConnections_bounds (v m : ℤ) :
    (AvailableConnections.acquire ⟨v, m⟩).1.value = v - 1 ∧
    ((AvailableConnections.acquire ⟨v, m⟩).2 = true ↔ v ≤ 0) ∧
    (AvailableConnections.release ⟨v, m⟩).1.value = v + 1 ∧
    (v ≤ m → ((AvailableConnections.release ⟨v, m⟩).2 = true ↔ v = m)) ∧
    (v = m → (AvailableConnections.release ⟨v, m⟩).1.value = m + 1) := by
  refine ⟨rfl, ?_, rfl, fun hvm => ?_, fun hvm => ?_⟩
  · simp only [AvailableConnections.acquire, decide_eq_true_eq]
    omega
  · simp only [AvailableConnections.release, decide_eq_true_eq]
    omega
  · simp only [AvailableConnections.release]
    omega

/-- Witness for C10: the bounds behaviour evaluated at a counter with
value 3 and maximum 3 (release raises, leaving 4) and at value 0 (acquire
raises, leaving -1). -/
theorem availableConnections_bounds_witness :
    ((3 : ℤ) ≤ 3 ∧ (AvailableConnections.release ⟨3, 3⟩).2 = true) ∧
    (AvailableConnections.release ⟨3, 3⟩).1.value = 4 ∧
    ((AvailableConnections.acquire ⟨0, 3⟩).2 = true ∧
      (AvailableConnections.acquire ⟨0, 3⟩).1.value = -1) :=
  ⟨⟨by decide,
      ((availableConnections_bounds 3 3).2.2.2.1 (by decide)).mpr rfl⟩,
    (availableConnections_bounds 3 3).2.2.2.2 rfl,
    ((availableConnections_bounds 0 3).2.1).mpr (by decide),
    (availableConnections_bounds 0 3).1⟩

/-! ## Passive-mode data-port pool -/

/-- Model of `Server.available_data_ports`, an `asyncio.PriorityQueue` of
`(priority, port)` pairs, as a list used as a multiset: `get_nowait`
removes the least pair in lexicographic order, `put_nowait` adds a pair. -/
abbrev PortPool := List (ℤ × ℤ)

/-- Lexicographic strict order on `(priority, port)` pairs, the order of
the priority queue. -/
def pqLt (a b : ℤ × ℤ) : Bool :=
  decide (a.1 < b.1 ∨ (a.1 = b.1 ∧ a.2 < b.2))

/-- The least element of a pool, or `none` when the pool is empty. -/
def pqMinOf : PortPool → Option (ℤ × ℤ)
  | [] => none
  | x :: xs => some (xs.foldl (fun m y => if pqLt y m then y else m) x)

/-- Remove the first occurrence of a pair from the pool. -/
def pqRemove : PortPool → (ℤ × ℤ) → PortPool
  | [], _ => []
  | x :: xs, m => if x = m then xs else x :: pqRemove xs m

/-- Model of `PriorityQueue.get_nowait`: remove and return the least
`(priority, port)` pair; `none` models `QueueEmpty`. -/
def pqGet (pool : PortPool) : Option ((ℤ × ℤ) × PortPool) :=
  match pqMinOf pool with
  | none => none
  | some m => some (m, pqRemove pool m)

/-- The ports of a pool, forgetting priorities. -/
def portsOf (pool : PortPool) : List ℤ := pool.map Prod.snd

/-- Outcome of the passive-listener port-allocation loop: a port was
allocated and a listener started, or `NoAvailablePort` was raised
(`noPort`), or the recursion fuel ran out (`fuelOut`, never reached with
enough fuel). -/
inductive AllocOutcome
  | allocated (port : ℤ)
  | noPort
  | fuelOut
deriving DecidableEq, Repr

/-- Model of the port-pool loop of `Server._start_passive_server` from
src/aioftp/server.py (the `available_data_ports is not None` regime).
`bindFails port = true` models `asyncio.start_server` raising
`OSError(EADDRINUSE)` for that port (other `OSError`s, which the source
re-raises after re-enqueuing, are outside the claims modeled here).
Each iteration dequeues the least `(priority, port)`; if the port was
already seen this round, `NoAvailablePort` is raised — note the dequeued
pair is NOT re-enqueued on this path; on `EADDRINUSE` the pair is
re-enqueued with `priority+1` and the port recorded as viewed; otherwise
the listener starts and the port is allocated.  An empty queue
(`QueueEmpty`) also raises `NoAvailablePort`, leaving the pool unchanged.
The explicit `fuel` bounds the recursion; any fuel larger than the number
of distinct ports is enough. -/
def start_passive_server (fuel : ℕ) (bindFails : ℤ → Bool) (viewed : List ℤ)
    (pool : PortPool) : AllocOutcome × PortPool :=
  match fuel with
  | 0 => (.fuelOut, pool)
  | f + 1 =>
      match pqGet pool with
      | none => (.noPort, pool)
      | some ((priority, port), rest) =>
          if viewed.contains port then (.noPort, rest)
          else if bindFails port then
            start_passive_server f bindFails (port :: viewed) (rest ++ [(priority + 1, port)])
          else (.allocated port, rest)

/-- The fold computing the least pool element returns one of the candidates. -/
theorem pqFold_mem (ys : List (ℤ × ℤ)) :
    ∀ x : ℤ × ℤ, ys.foldl (fun m y => if pqLt y m then y else m) x ∈ x :: ys := by
  induction ys with
  | nil => intro x; simp
  | cons y ys ih =>
      intro x
      simp only [List.foldl_cons]
      rcases List.mem_cons.mp (ih (if pqLt y x then y else x)) with h | h
      · rw [h]
        split_ifs <;> simp
      · simp [List.mem_cons.mpr (Or.inr (List.mem_cons.mpr (Or.inr h)))]

/-- The least element of a nonempty pool is a member of the pool. -/
theorem pqMinOf_mem {pool : PortPool} {m : ℤ × ℤ} (h : pqMinOf pool = some m) :
    m ∈ pool := by
  cases pool with
  | nil => cases h
  | cons x xs =>
      have hm := pqFold_mem xs x
      simp only [pqMinOf, Option.some.injEq] at h
      rw [h] at hm
      exact hm

/-- Removing a member is a permutation: the pool is, as a multiset, the
removed pair plus the remainder. -/
theorem pqRemove_perm {m : ℤ × ℤ} :
    ∀ {pool : PortPool}, m ∈ pool → pool.Perm (m :: pqRemove pool m) := by
  intro pool
  induction pool with
  | nil => intro h; cases h
  | cons x xs ih =>
      intro hmem
      by_cases hx : x = m
      · subst hx
        simp [pqRemove]
      · rcases List.mem_cons.mp hmem with h | h
        · exact absurd h.symm hx
        · have := (ih h).cons x
          simp only [pqRemove, if_neg hx]
          exact this.trans (List.Perm.swap m x _)

/-- Dequeuing the least element is a permutation: the pool is, as a
multiset, the dequeued pair plus the remainder. -/
theorem pqGet_perm {pool rest : PortPool} {m : ℤ × ℤ}
    (h : pqGet pool = some (m, rest)) : pool.Perm (m :: rest) := by
  unfold pqGet at h
  rcases hmin : pqMinOf pool with _ | m'
  · rw [hmin] at h; cases h
  · rw [hmin] at h
    simp only [Option.some.injEq, Prod.mk.injEq] at h
    rcases h with ⟨hm, hrest⟩
    subst hm
    subst hrest
    exact pqRemove_perm (pqMinOf_mem hmin)

/-- C4 counterexample: a pool holding the single port 1 whose bind always
fails with `EADDRINUSE`.  The first attempt re-enqueues `(1, 1)`; the
second dequeues port 1 again, finds it viewed, and raises
`NoAvailablePort` WITHOUT re-enqueuing it: the failing PASV/EPSV cycle
ends with an empty pool, so the pool does not contain the same set of
ports it started with. -/
theorem port_pool_loses_port :
    start_passive_server 2 (fun _ => true) [] [(0, 1)] = (.noPort, []) ∧
    ¬ (portsOf ([] : PortPool)).Perm (portsOf [((0 : ℤ), (1 : ℤ))]) := by
  decide

/-- C4 amended: successful PASV/EPSV cycles conserve the pool.  When the
allocation loop returns a port (after any number of `EADDRINUSE` retries,
each re-enqueuing the failed port with priority+1), the initial port
multiset is exactly the allocated port plus the final pool, and returning
the allocated port on listener close (the dispatcher enqueues `(0, port)`)
restores the initial port multiset.  A failed round that dequeues an
already-seen port, however, loses that port (see the counterexample). -/
theorem start_passive_server_conserves (fuel : ℕ) (bf : ℤ → Bool) :
    ∀ (viewed : List ℤ) (pool pool' : PortPool) (port : ℤ),
      start_passive_server fuel bf viewed pool = (.allocated port, pool') →
      (portsOf pool).Perm (port :: portsOf pool') ∧
      (portsOf ((0, port) :: pool')).Perm (portsOf pool) := by
  induction fuel with
  | zero => intro viewed pool pool' port h; cases h
  | succ f ih =>
      intro viewed pool pool' port h
      rcases hget : pqGet pool with _ | ⟨⟨priority, p⟩, rest⟩
      · simp [start_passive_server, hget] at h
      · simp only [start_passive_server, hget] at h
        have hpool : (portsOf pool).Perm (p :: portsOf rest) := by
          have := (pqGet_perm hget).map Prod.snd
          simpa [portsOf] using this
        by_cases hv : viewed.contains p = true
        · rw [if_pos hv] at h
          simp at h
        · rw [if_neg hv] at h
          by_cases hbf : bf p = true
          · rw [if_pos hbf] at h
            have hrec := (ih (p :: viewed) (rest ++ [(priority + 1, p)]) pool' port h).1
            have hplus : (portsOf (rest ++ [(priority + 1, p)])).Perm (p :: portsOf rest) := by
              simp only [portsOf, List.map_append, List.map_cons, List.map_nil]
              exact List.perm_append_singleton p (rest.map Prod.snd)
            have hmain : (portsOf pool).Perm (port :: portsOf pool') :=
              hpool.trans (hplus.symm.trans hrec)
            exact ⟨hmain, by simpa [portsOf] using hmain.symm⟩
          · rw [if_neg hbf] at h
            simp only [Prod.mk.injEq, AllocOutcome.allocated.injEq] at h
            rcases h with ⟨hp, hrest⟩
            subst hp
            subst hrest
            exact ⟨hpool, by simpa [portsOf] using hpool.symm⟩

/-- Witness for C4 amended: a pool with ports 5 and 6 where binding port 5
fails with `EADDRINUSE`; port 6 is allocated, `(1, 5)` stays in the pool,
and the conservation conclusion holds concretely. -/
theorem start_passive_server_conserves_witness :
    start_passive_server 3 (fun p => decide (p = 5)) [] [(0, 5), (0, 6)] =
      (.allocated 6, [(1, 5)]) ∧
    (portsOf [((0 : ℤ), (5 : ℤ)), (0, 6)]).Perm (6 :: portsOf [((1 : ℤ), (5 : ℤ))]) :=
  ⟨by decide,
    (start_passive_server_conserves 3 (fun p => decide (p = 5)) [] [(0, 5), (0, 6)]
      [(1, 5)] 6 (by decide)).1⟩

/-! ## ftp_pasv / ftp_epsv and the dispatcher reaction -/

/-- The part of `Server.ftp_pasv` modeled here.  `conditionFailed`: the
`ConnectionConditions(login_required)` decorator responded 503 and the
wrapper returned `None` (the return value of `connection.response`).
`noFreePorts`: `_start_passive_server` raised `NoAvailablePort`, the
handler responds 421 and returns `False`.  `proceeds`: a listener exists
(newly allocated `some port`, or reused `none`); its 227/503 response
encoding depends on the socket families and is not modeled — the claims
do not rely on it. -/
inductive PasvStep
  | conditionFailed
  | noFreePorts
  | proceeds (port : Option ℤ)
  | fuelExhausted
deriving DecidableEq, Repr

/-- Model of `Server.ftp_pasv` from src/aioftp/server.py, up to the
socket-dependent response encoding: check login, reuse an existing
passive listener, otherwise run the allocation loop and on
`NoAvailablePort` take the 421 failure path. -/
def ftp_pasv (logged hasPassiveServer : Bool) (fuel : ℕ) (bf : ℤ → Bool)
    (pool : PortPool) : PasvStep × PortPool :=
  if !logged then (.conditionFailed, pool)
  else if hasPassiveServer then (.proceeds none, pool)
  else
    match start_passive_server fuel bf [] pool with
    | (.noPort, pool') => (.noFreePorts, pool')
    | (.allocated port, pool') => (.proceeds (some port), pool')
    | (.fuelOut, pool') => (.fuelExhausted, pool')

/-- The responses enqueued on the fully modeled `ftp_pasv` paths (the
`proceeds`/`fuelExhausted` responses depend on socket state and are not
modeled; the claims never use them). -/
def pasvStepResponses : PasvStep → List (String × List String)
  | .conditionFailed => [("503", ["not logged in"])]
  | .noFreePorts => [("421", ["no free ports"])]
  | _ => []

/-- The value the decorated handler task returns on the fully modeled
paths: `some none` models Python `None`, `some (some b)` a Boolean return;
`none` marks the paths whose return value is not modeled. -/
def pasvStepResult : PasvStep → Option (Option Bool)
  | .conditionFailed => some none
  | .noFreePorts => some (some false)
  | _ => none

/-- Model of the dispatcher reaction to a completed handler task, from
`Server.dispatcher`: `if isinstance(result, bool): if not result: await
response_queue.join(); return` — the session ends exactly when the result
is the Boolean `False`; a `None` result keeps the session alive. -/
def dispatcherEndsSession (result : Option Bool) : Bool :=
  match result with
  | some b => !b
  | none => false

/-- C2 counterexample: with a logged-in connection, no existing passive
listener and a pool whose only port always fails to bind, PASV responds
421 "no free ports" — but the handler returns `False`, and on a `False`
result the dispatcher drains the response queue and returns: the session
TERMINATES instead of going on processing subsequent commands. -/
theorem pasv_no_free_ports_ends_session :
    ftp_pasv true false 2 (fun _ => true) [(0, 1)] = (.noFreePorts, []) ∧
    pasvStepResponses .noFreePorts = [("421", ["no free ports"])] ∧
    pasvStepResult .noFreePorts = some (some false) ∧
    dispatcherEndsSession (some false) = true := by
  decide

/-- C2 amended: whenever the port-allocation loop raises
`NoAvailablePort` for a logged-in connection with no existing passive
listener, the handler responds "421" with "no free ports" and returns
`False`, and the dispatcher thereupon drains the response queue and
terminates the session. -/
theorem ftp_pasv_421_terminates (fuel : ℕ) (bf : ℤ → Bool) (pool pool' : PortPool)
    (h : start_passive_server fuel bf [] pool = (.noPort, pool')) :
    ftp_pasv true false fuel bf pool = (.noFreePorts, pool') ∧
    pasvStepResponses .noFreePorts = [("421", ["no free ports"])] ∧
    pasvStepResult .noFreePorts = some (some false) ∧
    dispatcherEndsSession (some false) = true := by
  refine ⟨?_, rfl, rfl, rfl⟩
  simp [ftp_pasv, h]

/-- Witness for C2 amended: the 421 path evaluated on the concrete pool
`[(0, 1)]` with every bind failing. -/
theorem ftp_pasv_421_terminates_witness :
    start_passive_server 2 (fun _ => true) [] [(0, 1)] = (.noPort, []) ∧
    ftp_pasv true false 2 (fun _ => true) [(0, 1)] = (.noFreePorts, []) ∧
    dispatcherEndsSession (some false) = true :=
  ⟨by decide,
    (ftp_pasv_421_terminates 2 (fun _ => true) [(0, 1)] [] (by decide)).1,
    (ftp_pasv_421_terminates 2 (fun _ => true) [(0, 1)] [] (by decide)).2.2.2⟩

/-! ## Dispatcher restart-offset bookkeeping -/

/-- The keys of `Server.commands_mapping` from src/aioftp/server.py: the
commands the dispatcher recognizes. -/
def commands_mapping_keys : List String :=
  ["abor", "appe", "cdup", "cwd", "dele", "epsv", "list", "mkd", "mlsd",
   "mlst", "pass", "pasv", "pbsz", "prot", "pwd", "quit", "rest", "retr",
   "rmd", "rnfr", "rnto", "stor", "syst", "type", "user", "size", "noop"]

/-- The commands excluded from the restart-offset reset in the
dispatcher: `if cmd not in ("retr", "stor", "appe")`. -/
def transfer_commands : List String := ["retr", "stor", "appe"]

/-- The per-connection state the modeled dispatcher steps act on:
`connection.restart_offset`. -/
structure DispatchState where
  restart_offset : ℕ
deriving DecidableEq, Repr

/-- Model of Python `str.isdigit` for ASCII input: nonempty and all
digits. -/
def str_isdigit (s : String) : Bool :=
  !s.data.isEmpty && s.data.all Char.isDigit

/-- Model of `int(s)` for a digit string. -/
def digitsToNat (s : String) : ℕ :=
  s.data.foldl (fun n c => n * 10 + (c.toNat - 48)) 0

/-- Model of `Server.ftp_rest` from src/aioftp/server.py: a digit
argument sets `restart_offset` and responds 350, anything else resets it
to 0 and responds 501. -/
def ftp_rest (s : DispatchState) (rest : String) : DispatchState × String :=
  if str_isdigit rest then ({ s with restart_offset := digitsToNat rest }, "350")
  else ({ s with restart_offset := 0 }, "501")

/-- The effect of a recognized command handler on `restart_offset`:
`ftp_rest` is the only handler that writes it (the transfer workers only
read it), every other handler leaves it unchanged. -/
def handlerEffect (s : DispatchState) (cmd rest : String) : DispatchState :=
  if cmd = "rest" then (ftp_rest s rest).1 else s

/-- Model of one dispatcher command-processing step from
`Server.dispatcher`: an unrecognized command only gets a 502 response; a
recognized command is scheduled and, unless it is `retr`/`stor`/`appe`,
`connection.restart_offset` is reset to 0 before the handler coroutine
runs (the reset is synchronous, the scheduled task is not).  For a
transfer command the returned event records the offset the transfer
worker observes (it seeks exactly when the offset is nonzero). -/
def dispatchStep (s : DispatchState) (cmd rest : String) : DispatchState × Option ℕ :=
  if commands_mapping_keys.contains cmd then
    if transfer_commands.contains cmd then
      (handlerEffect s cmd rest, some s.restart_offset)
    else
      (handlerEffect { s with restart_offset := 0 } cmd rest, none)
  else (s, none)

/-- Run the dispatcher model over a command sequence, collecting the
offsets observed by the transfer workers. -/
def dispatchRun : DispatchState → List (String × String) → DispatchState × List ℕ
  | s, [] => (s, [])
  | s, (cmd, rest) :: more =>
      let step := dispatchStep s cmd rest
      let next := dispatchRun step.1 more
      (next.1, step.2.toList ++ next.2)

/-- C5 counterexample: after `REST 3` followed by two RETR commands with
no other command in between, BOTH transfers observe restart offset 3 and
seek: the offset set by REST is not consumed by the first transfer, so a
transfer after the very next one still seeks. -/
theorem rest_offset_persists_across_transfers :
    (dispatchRun ⟨0⟩ [("rest", "3"), ("retr", "f"), ("retr", "g")]).2 = [3, 3] ∧
    (3 : ℕ) ≠ 0 := by
  decide

/-- C5 amended: dispatching any recognized command other than
`retr`/`stor`/`appe` resets `restart_offset` to 0 before its handler runs
(for `REST n` itself, the handler then stores `n`); dispatching a transfer
command leaves `restart_offset` unchanged and the transfer worker observes
the current offset — so the offset set by REST is retained across
consecutive transfer commands and is cleared only by the next non-transfer
command. -/
theorem dispatcher_restart_offset (s : DispatchState) (cmd rest : String) :
    (commands_mapping_keys.contains cmd = true →
      transfer_commands.contains cmd = false →
      cmd ≠ "rest" →
      (dispatchStep s cmd rest).1.restart_offset = 0) ∧
    (str_isdigit rest = true →
      (dispatchStep s "rest" rest).1.restart_offset = digitsToNat rest) ∧
    (transfer_commands.contains cmd = true →
      dispatchStep s cmd rest = (s, some s.restart_offset)) := by
  refine ⟨fun hk hnt hr => ?_, fun hd => ?_, fun ht => ?_⟩
  · rw [dispatchStep, if_pos hk, if_neg (by rw [hnt]; decide), handlerEffect, if_neg hr]
  · rw [dispatchStep, if_pos (by decide), if_neg (by decide), handlerEffect,
      if_pos rfl, ftp_rest, if_pos hd]
  · have hcmd : cmd = "retr" ∨ cmd = "stor" ∨ cmd = "appe" := by
      have := ht
      simp only [transfer_commands, List.contains_cons, List.contains_nil,
        Bool.or_eq_true, beq_iff_eq] at this
      tauto
    have hk : commands_mapping_keys.contains cmd = true := by
      rcases hcmd with h | h | h <;> rw [h] <;> decide
    have hr : cmd ≠ "rest" := by
      rcases hcmd with h | h | h <;> rw [h] <;> decide
    rw [dispatchStep, if_pos hk, if_pos ht, handlerEffect, if_neg hr]

/-- Witness for C5 amended: the reset, REST and transfer cases evaluated
at a state with offset 7 and the commands `pwd`, `rest 42` and `retr`. -/
theorem dispatcher_restart_offset_witness :
    (commands_mapping_keys.contains "pwd" = true ∧
      transfer_commands.contains "pwd" = false ∧
      (dispatchStep ⟨7⟩ "pwd" "").1.restart_offset = 0) ∧
    (str_isdigit "42" = true ∧
      (dispatchStep ⟨7⟩ "rest" "42").1.restart_offset = digitsToNat "42") ∧
    (transfer_commands.contains "retr" = true ∧
      dispatchStep ⟨7⟩ "retr" "" = (⟨7⟩, some 7)) :=
  ⟨⟨by decide, by decide,
      (dispatcher_restart_offset ⟨7⟩ "pwd" "").1 (by decide) (by decide) (by decide)⟩,
    ⟨by decide,
      (dispatcher_restart_offset ⟨7⟩ "rest" "42").2.1 (by decide)⟩,
    ⟨by decide,
      (dispatcher_restart_offset ⟨7⟩ "retr" "").2.2 (by decide)⟩⟩

/-! ## Throttle -/

/-- Model of Python `round` on rationals: round half to even, as CPython
rounds binary floats. -/
def pyRound (q : ℚ) : ℤ :=
  if q - ⌊q⌋ < 1/2 then ⌊q⌋
  else if (1 : ℚ)/2 < q - ⌊q⌋ then ⌊q⌋ + 1
  else if ⌊q⌋ % 2 = 0 then ⌊q⌋ else ⌊q⌋ + 1

/-- Model of `aioftp.Throttle` from src/aioftp/common.py: `_limit` (bytes
per second or `None`), `reset_rate` (seconds), `_start` (the window start
timestamp, lazily initialized) and `_sum` (the accumulated byte count).
Event-loop timestamps are modeled as rationals. -/
structure Throttle where
  limit : Option ℤ
  reset_rate : ℚ
  start : Option ℚ
  sum : ℤ
deriving DecidableEq, Repr

namespace Throttle

/-- Model of `Throttle.append(data, start)` from src/aioftp/common.py:
when the limit is set and positive, lazily initialize `_start`, rebase the
window when `start - _start > reset_rate` (subtracting
`round((start - _start) * _limit)` from `_sum` and moving `_start` to
`start`), and always add `len(data)`; otherwise do nothing. -/
def append (t : Throttle) (dataLen : ℕ) (start : ℚ) : Throttle :=
  match t.limit with
  | none => t
  | some L =>
      if 0 < L then
        let st := t.start.getD start
        if t.reset_rate < start - st then
          { t with start := some start,
                   sum := t.sum - pyRound ((start - st) * L) + dataLen }
        else
          { t with start := some st, sum := t.sum + dataLen }
      else t

end Throttle

/-- C6: `Throttle.append` behaviour.  With an unset or non-positive limit
nothing changes.  With a set positive limit, the window start is lazily
initialized to `start`; when `start - window_start > reset_rate` the
rounded `elapsed * limit` byte count is subtracted and the window start is
rebased to `start`; in all cases `len(data)` is then added to the byte
count. -/
theorem throttle_append_spec (t : Throttle) (d : ℕ) (s : ℚ) :
    (t.limit = none → t.append d s = t) ∧
    (∀ L, t.limit = some L → L ≤ 0 → t.append d s = t) ∧
    (∀ L, t.limit = some L → 0 < L →
      (t.reset_rate < s - t.start.getD s →
        t.append d s =
          { t with start := some s,
                   sum := t.sum - pyRound ((s - t.start.getD s) * L) + d }) ∧
      (¬ t.reset_rate < s - t.start.getD s →
        t.append d s = { t with start := some (t.start.getD s), sum := t.sum + d })) := by
  refine ⟨fun h => ?_, fun L hL hle => ?_, fun L hL hpos => ⟨fun hrb => ?_, fun hrb => ?_⟩⟩
  · rw [Throttle.append, h]
  · rw [Throttle.append, hL]
    simp only [if_neg (by omega : ¬ (0 : ℤ) < L)]
  · rw [Throttle.append, hL]
    simp only [if_pos hpos, if_pos hrb]
  · rw [Throttle.append, hL]
    simp only [if_pos hpos, if_neg hrb]

/-- Witness for C6: the rebase case evaluated at limit 5, reset rate 10,
window start 0, byte count 7, appending 3 bytes at time 12; the new sum is
7 - round(12 * 5) + 3 = -50, and the non-positive-limit case at limit 0. -/
theorem throttle_append_spec_witness :
    ((Throttle.mk (some 5) 10 (some 0) 7).reset_rate <
        12 - (Throttle.mk (some 5) 10 (some 0) 7).start.getD 12 ∧
      (Throttle.mk (some 5) 10 (some 0) 7).append 3 12 =
        Throttle.mk (some 5) 10 (some 12) (-50)) ∧
    ((5 : ℤ) ≤ 5 ∧ (Throttle.mk (some 0) 10 none 0).append 4 1 =
      Throttle.mk (some 0) 10 none 0) := by
  constructor
  · constructor
    · norm_num
    · have h := ((throttle_append_spec (Throttle.mk (some 5) 10 (some 0) 7) 3 12).2.2
        5 rfl (by decide)).1 (by norm_num)
      rw [h]
      have hpr : pyRound ((12 - (Throttle.mk (some 5) 10 (some 0) 7).start.getD 12) * (5 : ℤ))
          = 60 := by
        norm_num [pyRound]
      rw [hpr]
      norm_num
  · exact ⟨by decide,
      (throttle_append_spec (Throttle.mk (some 0) 10 none 0) 4 1).2.1 0 rfl (by decide)⟩

/-! ## ftp_size -/

/-- Model of `Server.ftp_size` from src/aioftp/server.py together with its
decorator stack, parametrized by the path-IO answers at the resolved real
path: `ConnectionConditions(login_required)` responds 503 when not logged
in; `PathConditions(path_must_exists, path_must_be_file)` respond 550 on
the first failing condition; then the handler body responds 550 without
asking the path-IO layer for the size when the transfer type is `"A"`, and
otherwise responds 213 with the size.  The Boolean output records whether
`connection.path_io.size` was queried. -/
def ftp_size (logged : Bool) (transfer_type : Option String)
    (path_exists is_file : Bool) (file_size : ℕ) :
    List (String × String) × Bool :=
  if !logged then ([("503", "not logged in")], false)
  else if !path_exists then ([("550", "path does not exists")], false)
  else if !is_file then ([("550", "path is not a file")], false)
  else if transfer_type = some "A" then
    ([("550", "SIZE not allowed in ASCII mode")], false)
  else ([("213", toString file_size)], true)

/-- C9: for a logged-in connection and an existing regular file, SIZE in
ASCII transfer type responds "550 SIZE not allowed in ASCII mode" without
querying the path-IO size (the result does not depend on the size at all);
in any other transfer type it responds "213" with the size reported by the
path-IO layer. -/
theorem ftp_size_ascii_mode (tt : Option String) (n m : ℕ) :
    (tt = some "A" →
      ftp_size true tt true true n = ([("550", "SIZE not allowed in ASCII mode")], false) ∧
      ftp_size true tt true true n = ftp_size true tt true true m) ∧
    (tt ≠ some "A" →
      ftp_size true tt true true n = ([("213", toString n)], true)) := by
  constructor
  · intro h
    subst h
    exact ⟨rfl, rfl⟩
  · intro h
    rw [ftp_size]
    simp only [Bool.not_true, Bool.false_eq_true, if_false, if_neg h]

/-- Witness for C9: SIZE evaluated in ASCII mode (550, size not queried)
and in binary mode (213 with the reported size) for a 5-byte file. -/
theorem ftp_size_ascii_mode_witness :
    ((some "A" : Option String) = some "A" ∧
      ftp_size true (some "A") true true 5 =
        ([("550", "SIZE not allowed in ASCII mode")], false)) ∧
    ((some "I" : Option String) ≠ some "A" ∧
      ftp_size true (some "I") true true 5 = ([("213", toString 5)], true)) :=
  ⟨⟨rfl, ((ftp_size_ascii_mode (some "A") 5 5).1 rfl).1⟩,
    ⟨by decide, (ftp_size_ascii_mode (some "I") 5 5).2 (by decide)⟩⟩
